import Mathlib

/-!
Shallow embedding of the Rummy meld-validation engine from `rummy_final.py`.

Conventions of the embedding:
* A Python `Card` object is the structure `Card` below (`rank`, `suit`,
  `isjoker`).
* The mutable global `RANK_VALUE` table only ever changes at the key `"A"`
  (set to 1 at the entry of each run validator, possibly to 14 by the
  Ace-duality step inside the same call).  We therefore model the table as
  the pure function `rankValue av`, where `av` is the current value stored
  at `"A"`; every validator passes `1` at its entry, mirroring the
  `RANK_VALUE["A"] = 1` reset on its first line, and `14` after the
  duality step.
* In-place list mutation is modelled by explicit state passing: a validator
  returns its boolean verdict together with the list it leaves behind.
* A Python call that does not return a boolean — an uncaught `IndexError`,
  or the infinite rotation loop of `is_valid_book` on an all-joker meld —
  is modelled as `none`.  The rotation loop is given fuel `length + 1`:
  the loop body is a cyclic rotation of the list, so if the head is still
  a joker after `length` rotations the loop can never exit, and exhausted
  fuel faithfully denotes non-termination.
-/

namespace Rummy

/-- The 13 ranks, `RANK = ['A','2',...,'T','J','Q','K']` in the source. -/
inductive Rank where
  | A | n2 | n3 | n4 | n5 | n6 | n7 | n8 | n9 | T | J | Q | K
deriving DecidableEq, Repr

/-- The 4 suits, `SUIT = ['Hearts', 'Clubs', 'Spades', 'Diamonds']`. -/
inductive Suit where
  | Hearts | Clubs | Spades | Diamonds
deriving DecidableEq, Repr

/-- The `Card` class: rank, suit and the mutable joker flag. -/
structure Card where
  rank : Rank
  suit : Suit
  isjoker : Bool
deriving DecidableEq, Repr

/-- A non-joker card. -/
def plain (r : Rank) (s : Suit) : Card := ⟨r, s, false⟩

/-- A joker-flagged card. -/
def joker (r : Rank) (s : Suit) : Card := ⟨r, s, true⟩

/-- The `RANK_VALUE` dictionary.  `av` is the value currently stored at key
`"A"` (1 after the reset done by each run validator, 14 after the
Ace-duality step); all other keys are immutable. -/
def rankValue (av : Nat) : Rank → Nat
  | .A => av
  | .n2 => 2
  | .n3 => 3
  | .n4 => 4
  | .n5 => 5
  | .n6 => 6
  | .n7 => 7
  | .n8 => 8
  | .n9 => 9
  | .T => 10
  | .J => 11
  | .Q => 12
  | .K => 13

/-- One step of a bubble pass carrying the current element `a`: compares it
with the next element and swaps when `RANK_VALUE` strictly decreases,
exactly the inner `for i in range(0, len-1)` loop of `sort_sequence`.
Returns the rewritten tail and whether any swap happened. -/
def bubbleCarry (av : Nat) (a : Card) : List Card → List Card × Bool
  | [] => ([a], false)
  | b :: rest =>
    if rankValue av b.rank < rankValue av a.rank then
      let p := bubbleCarry av a rest
      (b :: p.1, true)
    else
      let p := bubbleCarry av b rest
      (a :: p.1, p.2)

/-- One full pass of the bubble sort in `sort_sequence`. -/
def bubblePass (av : Nat) : List Card → List Card × Bool
  | [] => ([], false)
  | a :: rest => bubbleCarry av a rest

/-- The `while is_sort_complete == False` loop of `sort_sequence`: repeat
passes until a pass performs no swap.  Bubble sort on `n` elements reaches
a swap-free pass within `n + 1` passes, so with the fuel chosen in
`sort_sequence` the fuel-exhaustion branch is unreachable. -/
def sortLoop (av : Nat) : Nat → List Card → List Card
  | 0, s => s
  | fuel + 1, s =>
    let p := bubblePass av s
    if p.2 then sortLoop av fuel p.1 else p.1

/-- `sort_sequence`: stable bubble sort of the cards by `RANK_VALUE`. -/
def sort_sequence (av : Nat) (s : List Card) : List Card :=
  sortLoop av (s.length + 1) s

/-- The `while sequence[0].isjoker` rotation loop at the top of
`is_valid_book`: `sequence.append(sequence.pop(0))` rotates the list one
step to the left.  The body is a cyclic rotation, so if no rotation among
the first `length` exposes a non-joker head none ever will; `none` models
the resulting infinite loop (and the `IndexError` on an empty list). -/
def rotateJokers : Nat → List Card → Option (List Card)
  | 0, _ => none
  | _ + 1, [] => none
  | fuel + 1, c :: rest =>
    if c.isjoker then rotateJokers fuel (rest ++ [c]) else some (c :: rest)

/-- `is_valid_book`: rotate jokers away from the front, then require every
non-joker card to have the rank of the (now non-joker) first card.
Returns the verdict together with the rotated list; `none` models the
call never returning (all-joker meld, or empty sequence). -/
def is_valid_book (s : List Card) : Option (Bool × List Card) :=
  match rotateJokers (s.length + 1) s with
  | none => none
  | some [] => none
  | some (c0 :: rest) =>
    some ((c0 :: rest).all (fun c => c.isjoker || decide (c.rank = c0.rank)), c0 :: rest)

/-- The adjacency loop of `is_valid_run`: for every consecutive pair the
rank value must increase by exactly 1. -/
def runAdj (av : Nat) : List Card → Bool
  | [] => true
  | [_] => true
  | a :: b :: rest =>
    decide (rankValue av b.rank = rankValue av a.rank + 1) && runAdj av (b :: rest)

/-- `is_valid_run`: reset `RANK_VALUE["A"]` to 1, sort, require a single
suit, apply the Ace-duality re-sort when the sorted sequence starts with an
Ace followed by J/Q/K, then check strict `+1` rank adjacency.  `none`
models the `IndexError` of `sequence[0]` / `sequence[1]` on sequences too
short to reach those accesses. -/
def is_valid_run (s : List Card) : Option (Bool × List Card) :=
  match sort_sequence 1 s with
  | [] => none
  | c0 :: rest =>
    if (c0 :: rest).all (fun c => decide (c.suit = c0.suit)) then
      if c0.rank = Rank.A then
        match rest with
        | [] => none
        | c1 :: rest' =>
          if c1.rank = Rank.Q ∨ c1.rank = Rank.J ∨ c1.rank = Rank.K then
            let s2 := sort_sequence 14 (c0 :: c1 :: rest')
            some (runAdj 14 s2, s2)
          else
            some (runAdj 1 (c0 :: c1 :: rest'), c0 :: c1 :: rest')
      else
        some (runAdj 1 (c0 :: rest), c0 :: rest)
    else
      some (false, c0 :: rest)

/-- The `for card in sequence: if card.is_joker(): sequence.remove(card)`
loop of `push_joker_toend`, together with the accumulation of the removed
jokers.  Python's list iterator keeps a running index while the body
removes the current element, so the element immediately after a removed
joker is skipped (left in place, unexamined).  Returns the remaining list
and the collected jokers. -/
def pushLoop : List Card → List Card × List Card
  | [] => ([], [])
  | [c] => if c.isjoker then ([], [c]) else ([c], [])
  | c :: d :: rest =>
    if c.isjoker then
      let p := pushLoop rest
      (d :: p.1, c :: p.2)
    else
      let p := pushLoop (d :: rest)
      (c :: p.1, p.2)

/-- `push_joker_toend`: sort, then run the removal loop and append the
collected jokers at the end. -/
def push_joker_toend (av : Nat) (s : List Card) : List Card :=
  let t := sort_sequence av s
  let p := pushLoop t
  p.1 ++ p.2

/-- The joker count computed at the top of `is_valid_run_joker`. -/
def countJokers (s : List Card) : Nat :=
  (s.filter (fun c => c.isjoker)).length

/-- The suit check of `is_valid_run_joker`: every non-joker card must have
the suit of `sequence[0]` (which may itself be a joker). -/
def suitsOkJ (c0 : Card) (s : List Card) : Bool :=
  s.all (fun c => c.isjoker || decide (c.suit = c0.suit))

/-- The inner `while` of `is_valid_run_joker`, comparing the current rank
value `cv` against `pv + rank_inc`: on mismatch it consumes a joker and
raises the increment while jokers remain, otherwise falls back to the
plain `+1` adjacency (break) or fails (`none` = `return False`).  The
joker budget strictly decreases on each retry, so the loop is structural
in it. -/
def gapLoop (pv cv : Nat) : Nat → Nat → Option (Nat × Nat)
  | rinc, 0 =>
    if cv = pv + rinc then some (rinc, 0)
    else if cv = pv + 1 then some (rinc, 0)
    else none
  | rinc, jc + 1 =>
    if cv = pv + rinc then some (rinc, jc + 1)
    else gapLoop pv cv (rinc + 1) jc

/-- The `for i in range(1, len(sequence))` walk of `is_valid_run_joker`:
joker elements are skipped, each non-joker element is compared with the
positionally previous element through `gapLoop`; `rank_inc` and the joker
budget persist across iterations. -/
def runJokerWalk (av : Nat) : Card → List Card → Nat → Nat → Bool
  | _, [], _, _ => true
  | prev, cur :: rest, rinc, jc =>
    if cur.isjoker then runJokerWalk av cur rest rinc jc
    else
      match gapLoop (rankValue av prev.rank) (rankValue av cur.rank) rinc jc with
      | none => false
      | some p => runJokerWalk av cur rest p.1 p.2

/-- Entry point of the walk: `rank_inc` starts at 1, `sequence[0]` is the
initial previous element. -/
def runJokerWalkFull (av jc : Nat) : List Card → Bool
  | [] => true
  | c :: rest => runJokerWalk av c rest 1 jc

/-- `is_valid_run_joker`: reset `RANK_VALUE["A"]`, sort and push jokers to
the end, count jokers, check suits of the non-jokers, re-apply the
Ace-duality (sort with A = 14, push again) when triggered, then run the
gap-filling walk.  `none` models the `IndexError` of `sequence[0]` /
`sequence[1]` on sequences too short to reach those accesses. -/
def is_valid_run_joker (s : List Card) : Option (Bool × List Card) :=
  match push_joker_toend 1 s with
  | [] => none
  | c0 :: rest =>
    let jc := countJokers (c0 :: rest)
    if suitsOkJ c0 (c0 :: rest) then
      if c0.rank = Rank.A then
        match rest with
        | [] => none
        | c1 :: rest' =>
          if c1.rank = Rank.Q ∨ c1.rank = Rank.J ∨ c1.rank = Rank.K then
            let s2 := push_joker_toend 14 (sort_sequence 14 (c0 :: c1 :: rest'))
            some (runJokerWalkFull 14 jc s2, s2)
          else
            some (runJokerWalkFull 1 jc (c0 :: c1 :: rest'), c0 :: c1 :: rest')
      else
        some (runJokerWalkFull 1 jc (c0 :: rest), c0 :: rest)
    else
      some (false, c0 :: rest)

/-- One iteration of the second loop of `Player.close_game`, with Python's
`and` short-circuit: `is_valid_book` is only called when `is_valid_run`
returned `False`, and `is_valid_run_joker` only when `is_valid_book` also
returned `False`.  The slice state is threaded through the calls. -/
def setCheck (t : List Card) : Option Bool :=
  match is_valid_run t with
  | none => none
  | some (r, t1) =>
    if r then some true
    else
      match is_valid_book t1 with
      | none => none
      | some (b, t2) =>
        if b then some true
        else
          match is_valid_run_joker t2 with
          | none => none
          | some (j, _) => some j

/-- The second loop of `Player.close_game` over the four (already mutated)
slices: returns `false` at the first slice failing all three validators. -/
def checkAll : List (List Card) → Option Bool
  | [] => some true
  | t :: ts =>
    match setCheck t with
    | none => none
    | some b => if b then checkAll ts else some false

/-- `Player.close_game`: slice the stash into `[:3] [3:6] [6:9] [9:]`
(Python slices are copies), count the slices passing `is_valid_run`,
return `False` when that count is zero, otherwise require every slice to
pass one of the three validators.  The lists mutated by the counting loop
are the ones seen by the second loop. -/
def close_game (stash : List Card) : Option Bool :=
  let s1 := stash.take 3
  let s2 := (stash.drop 3).take 3
  let s3 := (stash.drop 6).take 3
  let s4 := stash.drop 9
  match is_valid_run s1, is_valid_run s2, is_valid_run s3, is_valid_run s4 with
  | some p1, some p2, some p3, some p4 =>
    let count := (if p1.1 then 1 else 0) + (if p2.1 then 1 else 0) +
      (if p3.1 then 1 else 0) + (if p4.1 then 1 else 0)
    if count = 0 then some false
    else checkAll [p1.2, p2.2, p3.2, p4.2]
  | _, _, _, _ => none

/-- The single-character rank representation used by `get_object`
(`item.rank == str_card[0]`). -/
def rankChar : Rank → Char
  | .A => 'A'
  | .n2 => '2'
  | .n3 => '3'
  | .n4 => '4'
  | .n5 => '5'
  | .n6 => '6'
  | .n7 => '7'
  | .n8 => '8'
  | .n9 => '9'
  | .T => 'T'
  | .J => 'J'
  | .Q => 'Q'
  | .K => 'K'

/-- The first letter of the suit name, `item.suit[0]` in `get_object`. -/
def suitChar : Suit → Char
  | .Hearts => 'H'
  | .Clubs => 'C'
  | .Spades => 'S'
  | .Diamonds => 'D'

/-- `get_object`: reject inputs that are not exactly two characters, then
return the first card of the array whose rank letter and suit first letter
match. -/
def get_object (arr : List Card) (code : List Char) : Option Card :=
  match code with
  | [r, s] => arr.find? (fun item => rankChar item.rank == r && suitChar item.suit == s)
  | _ => none

/-- Whether a card is named by a user code string: the predicate
`get_object` searches with, `false` for codes that are not two characters
long. -/
def matchesCode (c : Card) (code : List Char) : Bool :=
  match code with
  | [r, s] => rankChar c.rank == r && suitChar c.suit == s
  | _ => false

/-- `Player.drop_card`: look the code up with `get_object`; a `None`
result is never `in` the stash (Python membership on `Card` objects is
identity), so the drop is rejected with the stash and pile unchanged;
otherwise the found card is removed from the stash and pushed on top of
the pile (`Game.add_pile` inserts at index 0). -/
def drop_card (stash pile : List Card) (code : List Char) : Bool × List Card × List Card :=
  match get_object stash code with
  | none => (false, stash, pile)
  | some c =>
    if c ∈ stash then (true, stash.erase c, c :: pile)
    else (false, stash, pile)

/-- `Player.deal_card`: the `try` block appends the card and then raises
`ValueError` when the stash exceeds 14 cards; the `except` clause catches
and prints the error, so the append is never undone and no exception
escapes.  The boolean records whether the error message was printed. -/
def deal_card (stash : List Card) (card : Card) : List Card × Bool :=
  let s := stash ++ [card]
  (s, decide (14 < s.length))

/-- Every joker-flagged card appears after every non-joker card. -/
def jokersAtEnd : List Card → Bool
  | [] => true
  | c :: rest => if c.isjoker then rest.all (fun d => d.isjoker) else jokersAtEnd rest

/-- No two adjacent cards are both joker-flagged. -/
def noAdjacentJokers : List Card → Bool
  | [] => true
  | [_] => true
  | a :: b :: rest => (!(a.isjoker && b.isjoker)) && noAdjacentJokers (b :: rest)

/-! Concrete inputs used by the claim theorems. -/

/-- A 3-card meld in which every card is joker-flagged. -/
def allJokerMeld : List Card :=
  [joker .n5 .Spades, joker .n5 .Hearts, joker .n5 .Diamonds]

/-- The hand of the spec's hand-closure scenario, with the third slice
joker-flagged as the spec states: its four positional slices are exactly
`[4♡,5♡,6♡] [5♠,5♦,5♣] [J♣(joker),J♡(joker),J♠(joker)] [2♦,3♦,4♦]`
(the listed slices total 12 cards). -/
def specClosureHand : List Card :=
  [plain .n4 .Hearts, plain .n5 .Hearts, plain .n6 .Hearts,
   plain .n5 .Spades, plain .n5 .Diamonds, plain .n5 .Clubs,
   joker .J .Clubs, joker .J .Hearts, joker .J .Spades,
   plain .n2 .Diamonds, plain .n3 .Diamonds, plain .n4 .Diamonds]

/-- The 13-card variant of the same scenario, matching the repository's
own `unit_tests` hand (which deals a second 5♦ at position 9) with the
three J cards joker-flagged. -/
def specClosureHand13 : List Card :=
  [plain .n4 .Hearts, plain .n5 .Hearts, plain .n6 .Hearts,
   plain .n5 .Spades, plain .n5 .Diamonds, plain .n5 .Clubs,
   joker .J .Clubs, joker .J .Hearts, joker .J .Spades,
   plain .n5 .Diamonds, plain .n2 .Diamonds, plain .n3 .Diamonds, plain .n4 .Diamonds]

/-- A 13-card hand whose first slice is a run containing a joker-flagged
card and whose other three slices are books: `close_game` accepts it even
though no slice is a joker-free run. -/
def jokerRunOnlyHand : List Card :=
  [joker .n4 .Diamonds, plain .n5 .Diamonds, plain .n6 .Diamonds,
   plain .n7 .Spades, plain .n7 .Hearts, plain .n7 .Diamonds,
   plain .n8 .Spades, plain .n8 .Hearts, plain .n8 .Diamonds,
   plain .n9 .Spades, plain .n9 .Hearts, plain .n9 .Diamonds, plain .n9 .Clubs]

/-- A sorted 3-card sequence with two adjacent jokers. -/
def adjacentJokerSeq : List Card :=
  [joker .A .Spades, joker .n2 .Spades, plain .n3 .Spades]

/-- A sorted 3-card sequence with a single (hence non-adjacent) joker. -/
def singleJokerSeq : List Card :=
  [plain .n3 .Spades, joker .n4 .Spades, plain .n5 .Spades]

/-- The meld `{4♦(joker), 6♦, 7♦}` of the joker-substitution property. -/
def gapJokerMeld : List Card :=
  [joker .n4 .Diamonds, plain .n6 .Diamonds, plain .n7 .Diamonds]

/-- The meld `{Queen♠, King♠, Ace♠}`. -/
def highAceMeld : List Card :=
  [plain .Q .Spades, plain .K .Spades, plain .A .Spades]

/-- The meld `{Ace♠, 2♠, 3♠}`. -/
def lowAceMeld : List Card :=
  [plain .A .Spades, plain .n2 .Spades, plain .n3 .Spades]

/-- A 13-card hand made of four books: no slice passes `is_valid_run`. -/
def allBooksHand : List Card :=
  [plain .n2 .Spades, plain .n2 .Hearts, plain .n2 .Diamonds,
   plain .n3 .Spades, plain .n3 .Hearts, plain .n3 .Diamonds,
   plain .n7 .Spades, plain .n7 .Hearts, plain .n7 .Diamonds,
   plain .n9 .Spades, plain .n9 .Hearts, plain .n9 .Diamonds, plain .n9 .Clubs]

/-- A one-card stash used by the drop-card witness. -/
def oneCardStash : List Card := [plain .n3 .Spades]

/-- A joker-free 3-card meld used by the multiset-preservation witness. -/
def pureRunMeld : List Card :=
  [plain .n4 .Hearts, plain .n5 .Hearts, plain .n6 .Hearts]

/-- A 14-card stash used by the deal-card witness. -/
def fullStash : List Card :=
  [plain .A .Spades, plain .n2 .Spades, plain .n3 .Spades, plain .n4 .Spades,
   plain .n5 .Spades, plain .n6 .Spades, plain .n7 .Spades, plain .n8 .Spades,
   plain .n9 .Spades, plain .T .Spades, plain .J .Spades, plain .Q .Spades,
   plain .K .Spades, plain .A .Hearts]

/-! ### Helper lemmas -/

/-- A carry step of the bubble pass permutes the carried element into the
tail. -/
theorem bubbleCarry_perm (av : Nat) :
    ∀ (l : List Card) (a : Card), (bubbleCarry av a l).1.Perm (a :: l)
  | [], a => by simp [bubbleCarry]
  | b :: rest, a => by
    by_cases hc : rankValue av b.rank < rankValue av a.rank
    · simp only [bubbleCarry, hc, if_true]
      exact ((bubbleCarry_perm av rest a).cons b).trans (List.Perm.swap a b rest)
    · simp only [bubbleCarry, hc, if_false]
      exact (bubbleCarry_perm av rest b).cons a

/-- One bubble pass is a permutation. -/
theorem bubblePass_perm (av : Nat) : ∀ (s : List Card), (bubblePass av s).1.Perm s
  | [] => List.Perm.refl _
  | a :: rest => bubbleCarry_perm av rest a

/-- The bubble-sort loop is a permutation for any fuel. -/
theorem sortLoop_perm (av : Nat) : ∀ (fuel : Nat) (s : List Card), (sortLoop av fuel s).Perm s
  | 0, s => List.Perm.refl s
  | fuel + 1, s => by
    simp only [sortLoop]
    split
    · exact (sortLoop_perm av fuel _).trans (bubblePass_perm av s)
    · exact bubblePass_perm av s

/-- `sort_sequence` is a permutation. -/
theorem sort_sequence_perm (av : Nat) (s : List Card) : (sort_sequence av s).Perm s :=
  sortLoop_perm av (s.length + 1) s

/-- The removal loop of `push_joker_toend` preserves the multiset of
cards: remaining list plus collected jokers is a permutation of the
input. -/
theorem pushLoop_perm : ∀ (s : List Card), ((pushLoop s).1 ++ (pushLoop s).2).Perm s
  | [] => by simp [pushLoop]
  | [c] => by by_cases hc : c.isjoker <;> simp [pushLoop, hc]
  | a :: b :: rest => by
    by_cases ha : a.isjoker
    · simp only [pushLoop, ha, if_true]
      have ih := pushLoop_perm rest
      have h1 : (b :: (pushLoop rest).1) ++ (a :: (pushLoop rest).2)
          = b :: ((pushLoop rest).1 ++ a :: (pushLoop rest).2) := by simp
      rw [h1]
      exact ((List.perm_middle.trans (ih.cons a)).cons b).trans (List.Perm.swap a b rest)
    · simp only [pushLoop, ha, if_false]
      have ih := pushLoop_perm (b :: rest)
      simpa using ih.cons a

/-- `push_joker_toend` is a permutation. -/
theorem push_joker_toend_perm (av : Nat) (s : List Card) : (push_joker_toend av s).Perm s := by
  unfold push_joker_toend
  exact (pushLoop_perm (sort_sequence av s)).trans (sort_sequence_perm av s)

/-- On a list of jokers only, the rotation loop of `is_valid_book` never
exits, whatever the fuel: this is the Lean rendering of the loop running
forever. -/
theorem rotateJokers_none_of_all_jokers :
    ∀ (fuel : Nat) (s : List Card), (∀ c ∈ s, c.isjoker = true) → rotateJokers fuel s = none
  | 0, _, _ => rfl
  | _ + 1, [], _ => rfl
  | fuel + 1, c :: rest, h => by
    have hc : c.isjoker = true := h c (List.mem_cons_self c rest)
    simp only [rotateJokers, hc, if_true]
    refine rotateJokers_none_of_all_jokers fuel (rest ++ [c]) ?_
    intro x hx
    rcases List.mem_append.mp hx with hx | hx
    · exact h x (List.mem_cons_of_mem _ hx)
    · rw [List.mem_singleton.mp hx]; exact hc

/-- With a joker prefix `pre` and enough fuel, the rotation loop stops at
the first non-joker card, having rotated the prefix to the back. -/
theorem rotateJokers_finds :
    ∀ (pre : List Card) (fuel : Nat) (c : Card) (post : List Card),
      pre.length < fuel → (∀ x ∈ pre, x.isjoker = true) → c.isjoker = false →
      rotateJokers fuel (pre ++ c :: post) = some (c :: (post ++ pre))
  | [], fuel, c, post, hf, _, hc => by
    cases fuel with
    | zero => omega
    | succ fuel => simp [rotateJokers, hc]
  | a :: pre', fuel, c, post, hf, hpre, hc => by
    cases fuel with
    | zero => simp at hf
    | succ fuel =>
      have ha : a.isjoker = true := hpre a (List.mem_cons_self _ _)
      have h1 : (a :: pre') ++ c :: post = a :: (pre' ++ c :: post) := by simp
      rw [h1]
      simp only [rotateJokers, ha, if_true]
      have h2 : (pre' ++ c :: post) ++ [a] = pre' ++ c :: (post ++ [a]) := by simp
      rw [h2, rotateJokers_finds pre' fuel c (post ++ [a])
        (by simpa using Nat.lt_of_succ_lt_succ hf)
        (fun x hx => hpre x (List.mem_cons_of_mem _ hx)) hc]
      simp

/-- A list containing a non-joker splits as a joker prefix, the first
non-joker, and a tail. -/
theorem exists_nonjoker_decomp :
    ∀ (s : List Card), (∃ c ∈ s, c.isjoker = false) →
      ∃ pre c post, s = pre ++ c :: post ∧ (∀ x ∈ pre, x.isjoker = true) ∧ c.isjoker = false
  | [], h => by simp at h
  | a :: rest, h => by
    by_cases ha : a.isjoker = false
    · exact ⟨[], a, rest, rfl, by simp, ha⟩
    · have ha' : a.isjoker = true := by
        cases hb : a.isjoker
        · exact absurd hb ha
        · rfl
      have hrest : ∃ c ∈ rest, c.isjoker = false := by
        obtain ⟨c, hc, hcj⟩ := h
        rcases List.mem_cons.mp hc with he | hm
        · subst he; exact absurd hcj ha
        · exact ⟨c, hm, hcj⟩
      obtain ⟨pre, c, post, he, hpre, hc⟩ := exists_nonjoker_decomp rest hrest
      refine ⟨a :: pre, c, post, by rw [he]; rfl, ?_, hc⟩
      intro x hx
      rcases List.mem_cons.mp hx with hxa | hxm
      · subst hxa; exact ha'
      · exact hpre x hxm

/-- `is_valid_book` returns (and merely rotates its input) as soon as the
meld contains a non-joker card. -/
theorem is_valid_book_total (s : List Card) (hnj : ∃ c ∈ s, c.isjoker = false) :
    ∃ v l, is_valid_book s = some (v, l) ∧ l.Perm s := by
  obtain ⟨pre, c, post, hs, hpre, hc⟩ := exists_nonjoker_decomp s hnj
  subst hs
  have hlen : pre.length < (pre ++ c :: post).length + 1 := by
    simp [List.length_append]
    omega
  unfold is_valid_book
  rw [rotateJokers_finds pre _ c post hlen hpre hc]
  exact ⟨_, _, rfl, (List.perm_append_comm.cons c).trans List.perm_middle.symm⟩

/-- A tail of a list without adjacent jokers has no adjacent jokers. -/
theorem noAdjacentJokers_tail :
    ∀ (a : Card) (l : List Card), noAdjacentJokers (a :: l) = true → noAdjacentJokers l = true
  | _, [], _ => rfl
  | a, b :: l, h => by
    simp only [noAdjacentJokers, Bool.and_eq_true] at h
    exact h.2

/-- When no two jokers are adjacent, the removal loop of
`push_joker_toend` behaves as the spec describes: it keeps the non-jokers
in order and collects the jokers in order. -/
theorem pushLoop_filter :
    ∀ (s : List Card), noAdjacentJokers s = true →
      pushLoop s = (s.filter (fun c => !c.isjoker), s.filter (fun c => c.isjoker))
  | [], _ => rfl
  | [c], _ => by
    by_cases hc : c.isjoker <;> simp [pushLoop, List.filter, hc]
  | a :: b :: rest, h => by
    have hrest : noAdjacentJokers (b :: rest) = true := by
      simp only [noAdjacentJokers, Bool.and_eq_true] at h
      exact h.2
    by_cases ha : a.isjoker
    · have hb : b.isjoker = false := by
        simp only [noAdjacentJokers, Bool.and_eq_true, Bool.not_eq_true',
          Bool.and_eq_false_iff] at h
        rcases h.1 with h1 | h1
        · exact absurd h1 (by simp [ha])
        · exact h1
      have hrest' : noAdjacentJokers rest = true := noAdjacentJokers_tail b rest hrest
      simp only [pushLoop, ha, if_true]
      rw [pushLoop_filter rest hrest']
      simp [List.filter, ha, hb]
    · simp only [pushLoop, ha, if_false]
      rw [pushLoop_filter (b :: rest) hrest]
      simp [List.filter, ha]

/-- `is_valid_run` returns a verdict on every sequence of length at least
2, and the list it leaves behind is a permutation of its input. -/
theorem is_valid_run_total (s : List Card) (h : 2 ≤ s.length) :
    ∃ v l, is_valid_run s = some (v, l) ∧ l.Perm s := by
  have hp : (sort_sequence 1 s).Perm s := sort_sequence_perm 1 s
  have hl : 2 ≤ (sort_sequence 1 s).length := by rw [hp.length_eq]; exact h
  obtain ⟨a, b, t, he⟩ : ∃ a b t, sort_sequence 1 s = a :: b :: t := by
    match hs : sort_sequence 1 s with
    | [] => rw [hs] at hl; simp at hl
    | [x] => rw [hs] at hl; simp at hl
    | a :: b :: t => exact ⟨a, b, t, rfl⟩
  rw [he] at hp
  simp only [is_valid_run, he]
  split
  · split
    · split
      · exact ⟨_, _, rfl, (sort_sequence_perm 14 _).trans hp⟩
      · exact ⟨_, _, rfl, hp⟩
    · exact ⟨_, _, rfl, hp⟩
  · exact ⟨_, _, rfl, hp⟩

/-- `is_valid_run_joker` returns a verdict on every sequence of length at
least 2, and the list it leaves behind is a permutation of its input. -/
theorem is_valid_run_joker_total (s : List Card) (h : 2 ≤ s.length) :
    ∃ v l, is_valid_run_joker s = some (v, l) ∧ l.Perm s := by
  have hp : (push_joker_toend 1 s).Perm s := push_joker_toend_perm 1 s
  have hl : 2 ≤ (push_joker_toend 1 s).length := by rw [hp.length_eq]; exact h
  obtain ⟨a, b, t, he⟩ : ∃ a b t, push_joker_toend 1 s = a :: b :: t := by
    match hs : push_joker_toend 1 s with
    | [] => rw [hs] at hl; simp at hl
    | [x] => rw [hs] at hl; simp at hl
    | a :: b :: t => exact ⟨a, b, t, rfl⟩
  rw [he] at hp
  simp only [is_valid_run_joker, he]
  split
  · split
    · split
      · exact ⟨_, _, rfl,
          ((push_joker_toend_perm 14 _).trans (sort_sequence_perm 14 _)).trans hp⟩
      · exact ⟨_, _, rfl, hp⟩
    · exact ⟨_, _, rfl, hp⟩
  · exact ⟨_, _, rfl, hp⟩

/-! ### Claim theorems -/

/-- Claim C1.  The claim says that on a meld in which every card is
joker-flagged `is_valid_book` terminates and returns true.  In the code
the rotation loop `while sequence[0].isjoker: sequence.append(sequence.pop(0))`
never exits on such a meld: for every fuel the loop is still running
(first conjunct), so the call never returns a verdict (second conjunct,
`none`). -/
theorem book_all_joker_meld_loops_forever :
    (∀ fuel, rotateJokers fuel allJokerMeld = none) ∧ is_valid_book allJokerMeld = none := by
  refine ⟨fun fuel => rotateJokers_none_of_all_jokers fuel allJokerMeld (by decide), ?_⟩
  rfl

/-- Claim C2.  The claim says `close_game` returns true on the hand with
slices `[4♡,5♡,6♡] [5♠,5♦,5♣] [J♣(joker),J♡(joker),J♠(joker)] [2♦,3♦,4♦]`.
Instead the call never returns: the second loop reaches the all-joker
third slice, calls `is_valid_book` on it, and that call loops forever.
This holds both for the hand whose slices are exactly the four listed
(12 cards), and for the repository's own 13-card unit-test hand with the
three J cards joker-flagged. -/
theorem close_game_spec_hand_with_jokers_hangs :
    close_game specClosureHand = none ∧ close_game specClosureHand13 = none ∧
    (∀ fuel, rotateJokers fuel ((specClosureHand.drop 6).take 3) = none) :=
  ⟨rfl, rfl, fun fuel => rotateJokers_none_of_all_jokers fuel _ (by decide)⟩

/-- Claim C3.  The claim says a true `close_game` verdict implies some
slice passes `is_valid_run` while containing no joker-flagged card.  The
code's counting loop uses `is_valid_run`, which never inspects the joker
flag, so `jokerRunOnlyHand` — whose only run slice contains a joker and
whose other slices are books — is accepted although no slice is a
joker-free run. -/
theorem close_game_true_without_pure_joker_free_run :
    close_game jokerRunOnlyHand = some true ∧
    ∀ s ∈ [jokerRunOnlyHand.take 3, (jokerRunOnlyHand.drop 3).take 3,
        (jokerRunOnlyHand.drop 6).take 3, jokerRunOnlyHand.drop 9],
      ¬((is_valid_run s).map Prod.fst = some true ∧ s.all (fun c => !c.isjoker) = true) := by
  decide

/-- Claim C4, counterexample.  `adjacentJokerSeq = [A♠(joker), 2♠(joker), 3♠]`
is already sorted and has 3 cards, yet after `push_joker_toend` a joker
still sits in front of a non-joker, and the result is not the
order-preserving split the claim describes: removing a card while Python
iterates over the list skips the element after it, so the second of two
adjacent jokers is never moved. -/
theorem push_joker_toend_adjacent_jokers_cex :
    sort_sequence 1 adjacentJokerSeq = adjacentJokerSeq ∧
    adjacentJokerSeq.length = 3 ∧
    jokersAtEnd (push_joker_toend 1 adjacentJokerSeq) = false ∧
    push_joker_toend 1 adjacentJokerSeq ≠
      adjacentJokerSeq.filter (fun c => !c.isjoker) ++
        adjacentJokerSeq.filter (fun c => c.isjoker) := by
  decide

/-- Claim C4, amended: for an already-sorted sequence in which no two
joker-flagged cards are adjacent, `push_joker_toend` moves every joker
after every non-joker, preserving the relative order of the jokers and of
the non-jokers (the result is exactly the non-jokers in order followed by
the jokers in order). -/
theorem push_joker_toend_no_adjacent_jokers_sound (av : Nat) (s : List Card)
    (hs : sort_sequence av s = s) (hadj : noAdjacentJokers s = true) :
    push_joker_toend av s =
      s.filter (fun c => !c.isjoker) ++ s.filter (fun c => c.isjoker) := by
  simp only [push_joker_toend, hs]
  rw [pushLoop_filter s hadj]

/-- Witness for the amended C4 at the sorted single-joker sequence
`[3♠, 4♠(joker), 5♠]`. -/
theorem push_joker_toend_no_adjacent_jokers_sound_witness :
    sort_sequence 1 singleJokerSeq = singleJokerSeq ∧
    noAdjacentJokers singleJokerSeq = true ∧
    push_joker_toend 1 singleJokerSeq =
      singleJokerSeq.filter (fun c => !c.isjoker) ++
        singleJokerSeq.filter (fun c => c.isjoker) :=
  ⟨by decide, by decide,
    push_joker_toend_no_adjacent_jokers_sound 1 singleJokerSeq (by decide) (by decide)⟩

/-- Claim C5: the meld `{4♦(joker), 6♦, 7♦}` is accepted by
`is_valid_run_joker` (the joker fills the missing 5) and rejected by
`is_valid_run`. -/
theorem joker_run_gap_fill_accepts_and_plain_run_rejects :
    (is_valid_run_joker gapJokerMeld).map Prod.fst = some true ∧
    (is_valid_run gapJokerMeld).map Prod.fst = some false := by
  decide

/-- Claim C6: `is_valid_run` accepts both `{Q♠, K♠, A♠}` (Ace re-valued
to 14 by the duality step) and `{A♠, 2♠, 3♠}` (Ace kept at 1).  Each call
resets `RANK_VALUE["A"]` to 1 on entry, which the embedding reflects by
starting every `is_valid_run` call at `av = 1`. -/
theorem ace_duality_runs_validate :
    (is_valid_run highAceMeld).map Prod.fst = some true ∧
    (is_valid_run lowAceMeld).map Prod.fst = some true := by
  decide

/-- Claim C7: on a 13-card hand none of whose four positional slices
passes `is_valid_run`, `close_game` returns false (the pure-run count is
zero and the second loop is never reached, so this holds even when every
slice is a valid book). -/
theorem close_game_false_when_no_slice_is_run (stash : List Card)
    (hlen : stash.length = 13)
    (h1 : (is_valid_run (stash.take 3)).map Prod.fst ≠ some true)
    (h2 : (is_valid_run ((stash.drop 3).take 3)).map Prod.fst ≠ some true)
    (h3 : (is_valid_run ((stash.drop 6).take 3)).map Prod.fst ≠ some true)
    (h4 : (is_valid_run (stash.drop 9)).map Prod.fst ≠ some true) :
    close_game stash = some false := by
  obtain ⟨v1, l1, hv1, -⟩ := is_valid_run_total (stash.take 3) (by
    rw [List.length_take, hlen]; decide)
  obtain ⟨v2, l2, hv2, -⟩ := is_valid_run_total ((stash.drop 3).take 3) (by
    rw [List.length_take, List.length_drop, hlen]; decide)
  obtain ⟨v3, l3, hv3, -⟩ := is_valid_run_total ((stash.drop 6).take 3) (by
    rw [List.length_take, List.length_drop, hlen]; decide)
  obtain ⟨v4, l4, hv4, -⟩ := is_valid_run_total (stash.drop 9) (by
    rw [List.length_drop, hlen]; decide)
  have hf1 : v1 = false := by
    cases v1
    · rfl
    · exact absurd (by rw [hv1]; rfl) h1
  have hf2 : v2 = false := by
    cases v2
    · rfl
    · exact absurd (by rw [hv2]; rfl) h2
  have hf3 : v3 = false := by
    cases v3
    · rfl
    · exact absurd (by rw [hv3]; rfl) h3
  have hf4 : v4 = false := by
    cases v4
    · rfl
    · exact absurd (by rw [hv4]; rfl) h4
  subst hf1; subst hf2; subst hf3; subst hf4
  simp only [close_game, hv1, hv2, hv3, hv4]
  simp

/-- Witness for C7 at a 13-card hand made of four books. -/
theorem close_game_false_when_no_slice_is_run_witness :
    allBooksHand.length = 13 ∧ close_game allBooksHand = some false :=
  ⟨by decide, close_game_false_when_no_slice_is_run allBooksHand
    (by decide) (by decide) (by decide) (by decide) (by decide)⟩

/-- Claim C8: when the code string names no card of the stash,
`drop_card` returns false and leaves stash and pile unchanged
(`get_object` yields `None`, which is never `in` the stash). -/
theorem drop_card_absent_code_rejected_unchanged (stash pile : List Card) (code : List Char)
    (h : ∀ c ∈ stash, matchesCode c code = false) :
    drop_card stash pile code = (false, stash, pile) := by
  have hg : get_object stash code = none := by
    match code with
    | [] => rfl
    | [r] => rfl
    | r :: s :: u :: t => rfl
    | [r, s] =>
      simp only [get_object]
      rw [List.find?_eq_none]
      intro c hc
      have hm := h c hc
      simp only [matchesCode] at hm
      simp [hm]
  simp [drop_card, hg]

/-- Witness for C8: dropping `KH` from a stash holding only `3♠`. -/
theorem drop_card_absent_code_rejected_unchanged_witness :
    drop_card oneCardStash [] ['K', 'H'] = (false, oneCardStash, []) :=
  drop_card_absent_code_rejected_unchanged oneCardStash [] ['K', 'H'] (by decide)

/-- Claim C9: on a 3-or-4-card meld containing at least one non-joker,
each of the three validators returns, and the list it leaves behind is a
permutation of the input (cards are only reordered, never added,
duplicated or removed). -/
theorem validators_preserve_card_multiset (s : List Card)
    (h3 : 3 ≤ s.length) (h4 : s.length ≤ 4)
    (hnj : ∃ c ∈ s, c.isjoker = false) :
    (∃ v l, is_valid_book s = some (v, l) ∧ l.Perm s) ∧
    (∃ v l, is_valid_run s = some (v, l) ∧ l.Perm s) ∧
    (∃ v l, is_valid_run_joker s = some (v, l) ∧ l.Perm s) :=
  ⟨is_valid_book_total s hnj, is_valid_run_total s (by omega),
    is_valid_run_joker_total s (by omega)⟩

/-- Witness for C9 at the joker-free meld `[4♡, 5♡, 6♡]`. -/
theorem validators_preserve_card_multiset_witness :
    3 ≤ pureRunMeld.length ∧ pureRunMeld.length ≤ 4 ∧
    (∃ c ∈ pureRunMeld, c.isjoker = false) ∧
    ((∃ v l, is_valid_book pureRunMeld = some (v, l) ∧ l.Perm pureRunMeld) ∧
      (∃ v l, is_valid_run pureRunMeld = some (v, l) ∧ l.Perm pureRunMeld) ∧
      (∃ v l, is_valid_run_joker pureRunMeld = some (v, l) ∧ l.Perm pureRunMeld)) :=
  ⟨by decide, by decide, by decide,
    validators_preserve_card_multiset pureRunMeld (by decide) (by decide) (by decide)⟩

/-- Claim C10: `deal_card` always appends the card (the `except` clause
catches the over-limit `ValueError`, so the append is never undone), the
stash grows by one, and from a 14-card stash it grows to 15 with the
error message printed. -/
theorem deal_card_always_appends (stash : List Card) (card : Card) :
    (deal_card stash card).1 = stash ++ [card] ∧
    (deal_card stash card).1.length = stash.length + 1 ∧
    (stash.length = 14 →
      (deal_card stash card).1.length = 15 ∧ (deal_card stash card).2 = true) := by
  refine ⟨rfl, by simp [deal_card], fun h => ⟨by simp [deal_card, h], ?_⟩⟩
  simp [deal_card, h]

/-- Witness for C10 at a concrete 14-card stash. -/
theorem deal_card_always_appends_witness :
    fullStash.length = 14 ∧
    (deal_card fullStash (plain Rank.n9 Suit.Clubs)).1.length = 15 ∧
    (deal_card fullStash (plain Rank.n9 Suit.Clubs)).2 = true :=
  ⟨by decide, (deal_card_always_appends fullStash (plain Rank.n9 Suit.Clubs)).2.2 (by decide)⟩

end Rummy
